import Mathlib

/-!
Verification of the PostStore markdown-ingestion routine of the `nextjs-blog`
repository, plus the page glue in `src/pages/index.js` (the `Home` page,
`getStaticProps`/`getStaticPaths`, and the API echo handler).

The PostStore operations (`listPostIds`, `listPostsSortedByDateDesc`,
`getPostData`) live in `lib/posts.js`, which is not part of the sources here;
only its callers are.  Those operations are therefore modelled from the spec
(§3, §4.1, §6, §7), as marked on each definition.  The page components and
the API handler are embedded from `src/pages/index.js` directly.
-/

namespace NextBlog

/-- Error kinds of the PostStore, from spec §7: `StorageError` for unreadable
or malformed content, `NotFoundError` for a missing post id. -/
inductive StoreError where
  | StorageError
  | NotFoundError
deriving Repr, DecidableEq

/-- Modelled from the spec (§6, missing `lib/posts.js`): a content file — a
file name (base name plus extension), a front-matter block parsed into a
string key/value mapping (`none` when the front-matter syntax is malformed),
and the markdown body that follows the front-matter. -/
structure ContentFile where
  name : String
  front : Option (List (String × String))
  body : String
deriving Repr, DecidableEq

/-- A content directory: the collection of content files, in scan order. -/
abbrev Dir := List ContentFile

/-- Modelled from the spec (§3, missing `lib/posts.js`): the PostId derived
1:1 from a content file's base name with the extension removed. -/
def stripExt (s : String) : String :=
  match s.toList.reverse.dropWhile (fun c => c != '.') with
  | [] => s
  | _ :: rest => String.mk rest.reverse

/-- PostMetadata, from spec §3: id, title, ISO-8601 date string, and all
other front-matter fields passed through verbatim. -/
structure PostMetadata where
  id : String
  title : String
  date : String
  extra : List (String × String)
deriving Repr, DecidableEq

/-- PostContent returned by `getPostData`, from spec §4.1: the metadata plus
the rendered HTML string; the raw markdown body is not returned. -/
structure PostContent where
  metadata : PostMetadata
  contentHtml : String
deriving Repr, DecidableEq

/-- Modelled from the spec (§4.1, missing `lib/posts.js`): parse a
front-matter mapping into PostMetadata for the post with the given id.
Malformed front-matter (`none`) or a missing required `title`/`date` field
fails with `StorageError`; the remaining fields pass through as `extra`. -/
def parseFront (id : String) (front : Option (List (String × String))) :
    Except StoreError PostMetadata :=
  match front with
  | none => .error .StorageError
  | some fields =>
    match fields.lookup "title", fields.lookup "date" with
    | some title, some date =>
        .ok ⟨id, title, date,
          fields.filter (fun kv => !(kv.1 == "title" || kv.1 == "date"))⟩
    | _, _ => .error .StorageError

/-- Parse one content file: derive the PostId from the file name and parse
its front-matter. -/
def parsePostFile (f : ContentFile) : Except StoreError PostMetadata :=
  parseFront (stripExt f.name) f.front

/-- Parse every file of the directory; the first failure fails the whole
listing (spec §4.1: no partial-success mode). -/
def parseAll : Dir → Except StoreError (List PostMetadata)
  | [] => .ok []
  | f :: fs => do
    let m ← parsePostFile f
    let ms ← parseAll fs
    .ok (m :: ms)

/-- Modelled from the spec (§4.1, §9, missing `lib/posts.js`):
`listPostIds` returns one PostId per content file; duplicate PostIds are a
configuration error surfaced as `StorageError` rather than silently picking
one file. -/
def listPostIds (dir : Dir) : Except StoreError (List String) :=
  if (dir.map (fun f => stripExt f.name)).Nodup then
    .ok (dir.map (fun f => stripExt f.name))
  else .error .StorageError

instance {ε α : Type} [DecidableEq ε] [DecidableEq α] : DecidableEq (Except ε α) := fun x y =>
  match x, y with
  | .ok a, .ok b =>
    if h : a = b then .isTrue (by rw [h]) else .isFalse (by intro he; cases he; exact h rfl)
  | .error e, .error f =>
    if h : e = f then .isTrue (by rw [h]) else .isFalse (by intro he; cases he; exact h rfl)
  | .ok _, .error _ => .isFalse (by intro he; cases he)
  | .error _, .ok _ => .isFalse (by intro he; cases he)

/-- The listing order of spec §4.1: `date` descending (strings compared
lexicographically, as character lists), ties broken by PostId ascending. -/
def postBefore (a b : PostMetadata) : Prop :=
  b.date.data < a.date.data ∨ (a.date = b.date ∧ a.id.data ≤ b.id.data)

instance : DecidableRel postBefore := fun a b => by
  unfold postBefore; exact inferInstance

instance : IsTotal PostMetadata postBefore := by
  constructor
  intro a b
  rcases lt_trichotomy a.date.data b.date.data with h | h | h
  · exact Or.inr (Or.inl h)
  · have hd : a.date = b.date := by
      cases a with | mk _ _ ad _ => cases b with | mk _ _ bd _ =>
      cases ad; cases bd; simp only at h; simp [h]
    rcases le_total a.id.data b.id.data with h2 | h2
    · exact Or.inl (Or.inr ⟨hd, h2⟩)
    · exact Or.inr (Or.inr ⟨hd.symm, h2⟩)
  · exact Or.inl (Or.inl h)

instance : IsTrans PostMetadata postBefore := by
  constructor
  intro a b c hab hbc
  rcases hab with h1 | ⟨h1, h1'⟩ <;> rcases hbc with h2 | ⟨h2, h2'⟩
  · exact Or.inl (lt_trans h2 h1)
  · exact Or.inl (h2 ▸ h1)
  · exact Or.inl (by rw [h1]; exact h2)
  · exact Or.inr ⟨h1.trans h2, h1'.trans h2'⟩

/-- Modelled from the spec (§4.1, §9, missing `lib/posts.js`):
`listPostsSortedByDateDesc` parses every content file (any malformed file
fails the whole listing with `StorageError`), rejects duplicate PostIds as a
configuration error, and sorts the metadata by date descending with ties
broken by PostId ascending. -/
def listPostsSortedByDateDesc (dir : Dir) : Except StoreError (List PostMetadata) :=
  match parseAll dir with
  | .error e => .error e
  | .ok metas =>
    if (metas.map (fun m => m.id)).Nodup then
      .ok (List.insertionSort postBefore metas)
    else .error .StorageError

/-- Split a character sequence at newline characters. -/
def splitLines : List Char → List (List Char)
  | [] => [[]]
  | c :: cs =>
    if c = '\n' then [] :: splitLines cs
    else
      match splitLines cs with
      | [] => [[c]]
      | l :: ls => (c :: l) :: ls

/-- Join rendered lines back with newline characters. -/
def joinLines : List (List Char) → List Char
  | [] => []
  | [l] => l
  | l :: ls => l ++ '\n' :: joinLines ls

/-- Modelled from the spec (§4.1, missing `lib/posts.js`): one line of the
markdown→HTML renderer — ATX headings render to the corresponding `<h1>`,
`<h2>`, `<h3>` tags, blank lines stay blank, and any other line becomes a
paragraph. -/
def renderLine (l : List Char) : List Char :=
  match l with
  | [] => []
  | '#' :: '#' :: '#' :: ' ' :: rest => "<h3>".data ++ rest ++ "</h3>".data
  | '#' :: '#' :: ' ' :: rest => "<h2>".data ++ rest ++ "</h2>".data
  | '#' :: ' ' :: rest => "<h1>".data ++ rest ++ "</h1>".data
  | l => "<p>".data ++ l ++ "</p>".data

/-- Modelled from the spec (§4.1, missing `lib/posts.js`): the markdown→HTML
renderer, rendering the body line by line.  A pure function of the body
text: no other input reaches it. -/
def renderMarkdown (body : String) : String :=
  ⟨joinLines (((splitLines body.data).map renderLine))⟩

/-- The content file a given id resolves to, when exactly one file's base
name maps to that id. -/
def findPostFile (dir : Dir) (id : String) : Option ContentFile :=
  match dir.filter (fun f => stripExt f.name == id) with
  | [f] => some f
  | _ => none

/-- Modelled from the spec (§4.1, §7, §9, missing `lib/posts.js`):
`getPostData` resolves the id to its content file (unknown ids fail with
`NotFoundError`, duplicate PostIds are a configuration error), parses its
front-matter and renders the body to HTML. -/
def getPostData (dir : Dir) (id : String) : Except StoreError PostContent :=
  match dir.filter (fun f => stripExt f.name == id) with
  | [] => .error .NotFoundError
  | [f] =>
    match parsePostFile f with
    | .ok meta => .ok ⟨meta, renderMarkdown f.body⟩
    | .error e => .error e
  | _ :: _ :: _ => .error .StorageError

/-! Page glue embedded from `src/pages/index.js`. -/

/-- `getStaticProps` of the home page (src/pages/index.js:70-77): it calls
`getSortedPostsData()` and passes the result through as the `allPostsData`
prop, unmodified.  A thrown storage error propagates. -/
def getStaticPropsHome (dir : Dir) : Except StoreError (List PostMetadata) :=
  listPostsSortedByDateDesc dir

/-- One `<li>` of the home page's blog list: its React key, the `Link`
target, the link text, and the date string given to the `Date` component. -/
structure ListItem where
  key : String
  href : String
  linkText : String
  dateString : String
deriving Repr, DecidableEq

/-- The `Home` component's blog list (src/pages/index.js:130-142): one list
item per element of `allPostsData`, in order, keyed by `id`, linking to
`/posts/{id}`, showing the title as link text and the date. -/
def homeListItems (allPostsData : List PostMetadata) : List ListItem :=
  allPostsData.map (fun p => ⟨p.id, "/posts/" ++ p.id, p.title, p.date⟩)

/-- A request to the API route: method, headers and body, none of which the
handler reads. -/
structure ApiRequest where
  method : String
  headers : List (String × String)
  body : String
deriving Repr, DecidableEq

/-- The response the API route produces: an HTTP status and a JSON object
(as a string key/value mapping). -/
structure ApiResponse where
  status : Nat
  json : List (String × String)
deriving Repr, DecidableEq

/-- The API echo handler (src/pages/api/hello.js, shipped at the end of the
sources): `res.status(200).json({ text: 'Hello' })`. -/
def handler (_req : ApiRequest) : ApiResponse :=
  ⟨200, [("text", "Hello")]⟩

/-! Helper lemmas shared by the claim theorems. -/

/-- Every parse failure of a front-matter block is a `StorageError`. -/
theorem parseFront_error {id : String} {front : Option (List (String × String))}
    {e : StoreError} (h : parseFront id front = .error e) : e = .StorageError := by
  cases front with
  | none =>
    simp only [parseFront] at h
    cases h; rfl
  | some fields =>
    simp only [parseFront] at h
    split at h
    · cases h
    · cases h; rfl

/-- Every parse failure of a content file is a `StorageError`. -/
theorem parsePostFile_error {f : ContentFile} {e : StoreError}
    (h : parsePostFile f = .error e) : e = .StorageError :=
  parseFront_error h

/-- If some file of the directory fails to parse, parsing the whole
directory fails with a `StorageError`. -/
theorem parseAll_error {dir : Dir} {f : ContentFile} (hf : f ∈ dir)
    (he : ∀ m, parsePostFile f ≠ .ok m) :
    parseAll dir = .error .StorageError := by
  induction dir with
  | nil => cases hf
  | cons g gs ih =>
    cases hg : parsePostFile g with
    | error e =>
      have : e = .StorageError := parsePostFile_error hg
      subst this
      simp [parseAll, hg, Bind.bind, Except.bind]
    | ok m =>
      rcases List.mem_cons.mp hf with rfl | hmem
      · exact absurd hg (he m)
      · simp [parseAll, hg, Bind.bind, Except.bind, ih hmem]

/-- If every file of the directory parses, parsing the whole directory
succeeds and yields one metadata record per file, in order. -/
theorem parseAll_ok {dir : Dir}
    (h : ∀ f ∈ dir, ∃ m, parsePostFile f = .ok m) :
    ∃ ms, parseAll dir = .ok ms := by
  induction dir with
  | nil => exact ⟨[], rfl⟩
  | cons g gs ih =>
    obtain ⟨m, hm⟩ := h g (List.mem_cons_self g gs)
    obtain ⟨ms, hms⟩ := ih (fun f hf => h f (List.mem_cons_of_mem g hf))
    exact ⟨m :: ms, by simp [parseAll, hm, hms, Bind.bind, Except.bind]⟩

/-- When the mapped keys of a list are nodup, filtering for the key of a
member returns exactly that member. -/
theorem filter_eq_singleton_of_nodup {α β : Type} [DecidableEq β]
    {g : α → β} {l : List α} {f : α} {id : β}
    (hnd : (l.map g).Nodup) (hf : f ∈ l) (hid : g f = id) :
    l.filter (fun x => g x == id) = [f] := by
  induction l with
  | nil => cases hf
  | cons a as ih =>
    rw [List.map_cons, List.nodup_cons] at hnd
    rcases List.mem_cons.mp hf with rfl | hmem
    · subst hid
      have hnil : as.filter (fun x => g x == g f) = [] := by
        rw [List.filter_eq_nil_iff]
        intro x hx hgx
        apply hnd.1
        rw [List.mem_map]
        exact ⟨x, hx, by simpa using hgx⟩
      simp [List.filter_cons, hnil]
    · have hne : g a ≠ id := by
        intro hga
        apply hnd.1
        rw [hga, ← hid]
        exact List.mem_map_of_mem g hmem
      simp [List.filter_cons, hne, ih hnd.2 hmem]

/-- Filtering for a key that no member maps to returns nothing. -/
theorem filter_eq_nil_of_not_mem {α β : Type} [DecidableEq β]
    {g : α → β} {l : List α} {id : β} (h : id ∉ l.map g) :
    l.filter (fun x => g x == id) = [] := by
  rw [List.filter_eq_nil_iff]
  intro x hx hgx
  apply h
  rw [List.mem_map]
  exact ⟨x, hx, by simpa using hgx⟩

/-- `getPostData` on an id resolved by `findPostFile` renders that file's
body; its `contentHtml` is `renderMarkdown` of the body. -/
theorem getPostData_contentHtml {dir : Dir} {id : String} {f : ContentFile}
    {pc : PostContent} (hfind : findPostFile dir id = some f)
    (hget : getPostData dir id = .ok pc) :
    pc.contentHtml = renderMarkdown f.body := by
  cases hfe : dir.filter (fun x => stripExt x.name == id) with
  | nil =>
    simp only [findPostFile, hfe] at hfind
    cases hfind
  | cons g gs =>
    cases gs with
    | nil =>
      simp only [findPostFile, hfe, Option.some.injEq] at hfind
      simp only [getPostData, hfe, hfind] at hget
      split at hget
      · cases hget; rfl
      · cases hget
    | cons g₂ gs₂ =>
      simp only [findPostFile, hfe] at hfind
      cases hfind

/-! Concrete content files used as witnesses. -/

/-- Example file `a.md` of spec §8, date 2020-01-01. -/
def fileA : ContentFile := ⟨"a.md", some [("title", "A"), ("date", "2020-01-01")], "bodyA"⟩

/-- Example file `b.md` of spec §8, date 2021-06-01. -/
def fileB : ContentFile := ⟨"b.md", some [("title", "B"), ("date", "2021-06-01")], "bodyB"⟩

/-- The two-file example directory of spec §8. -/
def twoFileDir : Dir := [fileA, fileB]

/-- The metadata of `a.md`. -/
def metaA : PostMetadata := ⟨"a", "A", "2020-01-01", []⟩

/-- The metadata of `b.md`. -/
def metaB : PostMetadata := ⟨"b", "B", "2021-06-01", []⟩

/-- A directory with one file whose front-matter is malformed. -/
def malformedDir : Dir := [⟨"a.md", none, ""⟩]

/-- C1: every sequence returned by `listPostsSortedByDateDesc` is sorted by
date descending — for adjacent pairs (a, b), `a.date ≥ b.date`, and equal
dates are ordered by PostId ascending. -/
theorem listPostsSortedByDateDesc_sorted (dir : Dir) (l : List PostMetadata)
    (h : listPostsSortedByDateDesc dir = .ok l) :
    l.Chain' (fun a b => b.date ≤ a.date ∧ (a.date = b.date → a.id ≤ b.id)) := by
  cases hp : parseAll dir with
  | error e =>
    simp only [listPostsSortedByDateDesc, hp] at h
    cases h
  | ok metas =>
    simp only [listPostsSortedByDateDesc, hp] at h
    split at h
    · cases h
      have hs : List.Sorted postBefore (List.insertionSort postBefore metas) :=
        List.sorted_insertionSort postBefore metas
      refine List.Pairwise.chain' (List.Pairwise.imp ?_ hs)
      intro a b hab
      rcases hab with hlt | ⟨he, hle⟩
      · refine ⟨String.le_iff_toList_le.mpr (le_of_lt hlt), ?_⟩
        intro he
        rw [he] at hlt
        exact absurd hlt (lt_irrefl _)
      · refine ⟨?_, fun _ => String.le_iff_toList_le.mpr hle⟩
        rw [he]
    · cases h

/-- C1 witness: on the spec §8 example directory (a.md dated 2020-01-01,
b.md dated 2021-06-01) the listing is `[b, a]` and it is sorted. -/
theorem listPostsSortedByDateDesc_sorted_witness :
    listPostsSortedByDateDesc twoFileDir = .ok [metaB, metaA] ∧
    List.Chain' (fun a b => b.date ≤ a.date ∧ (a.date = b.date → a.id ≤ b.id))
      [metaB, metaA] :=
  ⟨by decide, listPostsSortedByDateDesc_sorted twoFileDir [metaB, metaA] (by decide)⟩

/-- C3: an id not in the output of `listPostIds` (no corresponding content
file) makes `getPostData` fail with `NotFoundError`, so no `PostContent` is
returned. -/
theorem getPostData_unknown_id (dir : Dir) (ids : List String) (id : String)
    (hids : listPostIds dir = .ok ids) (hmem : id ∉ ids) :
    getPostData dir id = .error .NotFoundError := by
  have hids2 : ids = dir.map (fun f => stripExt f.name) := by
    simp only [listPostIds] at hids
    split at hids
    · cases hids; rfl
    · cases hids
  rw [hids2] at hmem
  have hnil := filter_eq_nil_of_not_mem (g := fun f : ContentFile => stripExt f.name) hmem
  simp only [getPostData, hnil]

/-- C3 witness: the id `zzz` has no file in the example directory and fails
with `NotFoundError`. -/
theorem getPostData_unknown_id_witness :
    getPostData twoFileDir "zzz" = .error .NotFoundError :=
  getPostData_unknown_id twoFileDir ["a", "b"] "zzz" (by decide) (by decide)

/-- C4: if any single content file cannot be parsed — malformed front-matter
or missing required `title`/`date` — the whole listing fails with
`StorageError`; no partial listing is produced. -/
theorem listing_fails_on_malformed (dir : Dir) (f : ContentFile) (hf : f ∈ dir)
    (hbad : f.front = none ∨
      ∃ fields, f.front = some fields ∧
        (fields.lookup "title" = none ∨ fields.lookup "date" = none)) :
    listPostsSortedByDateDesc dir = .error .StorageError := by
  have herr : parsePostFile f = .error .StorageError := by
    unfold parsePostFile parseFront
    rcases hbad with hb | ⟨fields, hb, hfield⟩
    · rw [hb]
    · simp only [hb]
      rcases ht : fields.lookup "title" with _ | t <;>
        rcases hd : fields.lookup "date" with _ | d <;>
        simp_all
  have hne : ∀ m, parsePostFile f ≠ .ok m := by
    intro m hm
    rw [herr] at hm
    cases hm
  simp only [listPostsSortedByDateDesc, parseAll_error hf hne]

/-- C4 witness: a directory containing one malformed file fails with
`StorageError`. -/
theorem listing_fails_on_malformed_witness :
    listPostsSortedByDateDesc malformedDir = .error .StorageError :=
  listing_fails_on_malformed malformedDir ⟨"a.md", none, ""⟩ (by decide) (Or.inl rfl)

/-- C2 counterexample: for a directory whose only file `a.md` has malformed
front-matter, `listPostIds` returns the id `a`, yet `getPostData "a"` does
not succeed — it fails with `StorageError` — refuting the claim that every
id returned by `listPostIds` feeds into a succeeding `getPostData` for
every content directory. -/
theorem listPostIds_getPostData_counterexample :
    listPostIds malformedDir = .ok ["a"] ∧
    getPostData malformedDir "a" = .error .StorageError ∧
    ∀ pc, getPostData malformedDir "a" ≠ .ok pc := by
  refine ⟨by decide, by decide, ?_⟩
  intro pc h
  have he : getPostData malformedDir "a" = .error .StorageError := by decide
  rw [he] at h
  cases h

/-- C2 amended: when every content file parses (well-formed front-matter
with `title` and `date` present), `listPostIds` returns exactly one id per
file — the base name with the extension removed — and `getPostData`
succeeds on every returned id. -/
theorem listPostIds_getPostData_roundtrip (dir : Dir) (ids : List String)
    (hids : listPostIds dir = .ok ids)
    (hok : ∀ f ∈ dir, ∃ m, parsePostFile f = .ok m) :
    ids = dir.map (fun f => stripExt f.name) ∧
    ∀ id ∈ ids, ∃ pc, getPostData dir id = .ok pc := by
  have hsplit : (dir.map (fun f : ContentFile => stripExt f.name)).Nodup ∧
      ids = dir.map (fun f : ContentFile => stripExt f.name) := by
    simp only [listPostIds] at hids
    split at hids
    · cases hids
      exact ⟨by assumption, rfl⟩
    · cases hids
  obtain ⟨hnd, hids2⟩ := hsplit
  refine ⟨hids2, ?_⟩
  intro id hid
  rw [hids2] at hid
  obtain ⟨f, hf, hfid⟩ := List.mem_map.mp hid
  have hfil := filter_eq_singleton_of_nodup hnd hf hfid
  obtain ⟨m, hm⟩ := hok f hf
  refine ⟨⟨m, renderMarkdown f.body⟩, ?_⟩
  simp only [getPostData, hfil, hm]

/-- C2 amended witness: on the spec §8 two-file directory, the ids are
`[a, b]` and `getPostData` succeeds on each. -/
theorem listPostIds_getPostData_roundtrip_witness :
    (["a", "b"] : List String) = twoFileDir.map (fun f => stripExt f.name) ∧
    ∀ id ∈ (["a", "b"] : List String), ∃ pc, getPostData twoFileDir id = .ok pc :=
  listPostIds_getPostData_roundtrip twoFileDir ["a", "b"] (by decide)
    (by
      intro f hf
      rcases hf with _ | ⟨_, hf⟩
      · exact ⟨metaA, by decide⟩
      rcases hf with _ | ⟨_, hf⟩
      · exact ⟨metaB, by decide⟩
      cases hf)

/-- A one-file directory whose post has body `# Hi` and title `X`. -/
def fileX : ContentFile := ⟨"x.md", some [("title", "X"), ("date", "2000-01-01")], "# Hi"⟩

/-- A one-file directory whose post has body `# Hi` but different name,
title and date. -/
def fileY : ContentFile := ⟨"y.md", some [("title", "Y"), ("date", "1999-12-31")], "# Hi"⟩

/-- C5: the rendered `contentHtml` of `getPostData` is a pure function of
the resolved file's body text alone — it equals `renderMarkdown` of the
body, and two calls whose resolved files have identical bodies yield
byte-identical `contentHtml`, whatever the directories, ids and metadata. -/
theorem getPostData_pure_in_body (dir₁ dir₂ : Dir) (id₁ id₂ : String)
    (f₁ f₂ : ContentFile) (pc₁ pc₂ : PostContent)
    (h₁ : findPostFile dir₁ id₁ = some f₁) (h₂ : findPostFile dir₂ id₂ = some f₂)
    (g₁ : getPostData dir₁ id₁ = .ok pc₁) (g₂ : getPostData dir₂ id₂ = .ok pc₂)
    (hb : f₁.body = f₂.body) :
    pc₁.contentHtml = renderMarkdown f₁.body ∧
    pc₂.contentHtml = renderMarkdown f₂.body ∧
    pc₁.contentHtml = pc₂.contentHtml := by
  have e₁ := getPostData_contentHtml h₁ g₁
  have e₂ := getPostData_contentHtml h₂ g₂
  exact ⟨e₁, e₂, by rw [e₁, e₂, hb]⟩

/-- C5 witness: two different directories whose posts share the body
`# Hi` produce byte-identical `contentHtml`. -/
theorem getPostData_pure_in_body_witness :
    (⟨⟨"x", "X", "2000-01-01", []⟩, "<h1>Hi</h1>"⟩ : PostContent).contentHtml =
        renderMarkdown fileX.body ∧
    (⟨⟨"y", "Y", "1999-12-31", []⟩, "<h1>Hi</h1>"⟩ : PostContent).contentHtml =
        renderMarkdown fileY.body ∧
    (⟨⟨"x", "X", "2000-01-01", []⟩, "<h1>Hi</h1>"⟩ : PostContent).contentHtml =
      (⟨⟨"y", "Y", "1999-12-31", []⟩, "<h1>Hi</h1>"⟩ : PostContent).contentHtml :=
  getPostData_pure_in_body [fileX] [fileY] "x" "y" fileX fileY _ _
    (by decide) (by decide) (by decide) (by decide) rfl

/-- The synthetic content file of spec §8's round-trip property. -/
def hiFile : ContentFile := ⟨"hi.md", some [("title", "T"), ("date", "2021-01-02")], "# Hi"⟩

/-- C6: on a file with front-matter title `T`, date `2021-01-02` and body
`# Hi`, `getPostData` returns metadata title `T`, date `2021-01-02`, and a
`contentHtml` containing an `<h1>` element wrapping `Hi`; the returned
value carries only the metadata and the rendered HTML (the `PostContent`
type has no raw-markdown field). -/
theorem getPostData_roundtrip :
    ∃ pc : PostContent, getPostData [hiFile] "hi" = .ok pc ∧
      pc.metadata.title = "T" ∧ pc.metadata.date = "2021-01-02" ∧
      ∃ s t : String, pc.contentHtml = s ++ "<h1>Hi</h1>" ++ t := by
  refine ⟨⟨⟨"hi", "T", "2021-01-02", []⟩, "<h1>Hi</h1>"⟩, by decide, rfl, rfl, "", "", ?_⟩
  decide

/-- The same directory with every body erased. -/
def eraseBodies (dir : Dir) : Dir := dir.map (fun f => ⟨f.name, f.front, ""⟩)

/-- C7: listing never pays markdown-rendering cost — the result of
`listPostsSortedByDateDesc` is metadata only and is entirely independent of
the bodies the renderer would consume: erasing every body leaves the
listing unchanged, so no rendered `contentHtml` can occur in it (its
element type `PostMetadata` has no HTML field). -/
theorem listing_independent_of_bodies (dir : Dir) :
    listPostsSortedByDateDesc (eraseBodies dir) = listPostsSortedByDateDesc dir := by
  have hp : parseAll (eraseBodies dir) = parseAll dir := by
    induction dir with
    | nil => rfl
    | cons f fs ih =>
      have hf : parsePostFile ⟨f.name, f.front, ""⟩ = parsePostFile f := by
        cases f; rfl
      simp only [eraseBodies, List.map_cons] at ih ⊢
      simp only [parseAll, hf, ih]
  simp only [listPostsSortedByDateDesc, hp]

/-- A directory in which `a.md` and `a.txt` both map to the PostId `a`. -/
def dupDir : Dir :=
  [⟨"a.md", some [("title", "A"), ("date", "2020-01-01")], ""⟩,
   ⟨"a.txt", some [("title", "B"), ("date", "2020-02-02")], ""⟩]

/-- C8: duplicate PostIds are a configuration error — when two files map to
the same id, `listPostIds` fails with `StorageError` (it never silently
picks one); any sequence it does return is duplicate-free; and `getPostData`
on an id matched by two or more files fails with `StorageError` too. -/
theorem listPostIds_nodup (dir : Dir) :
    (¬ (dir.map (fun f => stripExt f.name)).Nodup →
      listPostIds dir = .error .StorageError) ∧
    (∀ ids, listPostIds dir = .ok ids → ids.Nodup) ∧
    (∀ id : String, 2 ≤ (dir.filter (fun f => stripExt f.name == id)).length →
      getPostData dir id = .error .StorageError) := by
  refine ⟨?_, ?_, ?_⟩
  · intro h
    simp only [listPostIds, if_neg h]
  · intro ids hids
    simp only [listPostIds] at hids
    split at hids
    · cases hids; assumption
    · cases hids
  · intro id hlen
    cases hfe : dir.filter (fun f => stripExt f.name == id) with
    | nil => rw [hfe] at hlen; simp at hlen
    | cons g gs =>
      cases gs with
      | nil => rw [hfe] at hlen; simp at hlen
      | cons g₂ gs₂ => simp only [getPostData, hfe]

/-- C8 witness: on the directory where `a.md` and `a.txt` collide on the id
`a`, both operations fail with `StorageError`. -/
theorem listPostIds_nodup_witness :
    listPostIds dupDir = .error .StorageError ∧
    getPostData dupDir "a" = .error .StorageError :=
  ⟨(listPostIds_nodup dupDir).1 (by decide),
   (listPostIds_nodup dupDir).2.2 "a" (by decide)⟩

/-- C9: the API echo handler answers every request — whatever its method,
headers or body — with status 200 and the JSON body `{ text: 'Hello' }`,
and its response does not depend on the request at all. -/
theorem handler_always_hello (req₁ req₂ : ApiRequest) :
    (handler req₁).status = 200 ∧
    (handler req₁).json = [("text", "Hello")] ∧
    handler req₁ = handler req₂ :=
  ⟨rfl, rfl, rfl⟩

/-- C10: the posts sequence reaches the home page through `getStaticProps`
unmodified — it is exactly the output of `listPostsSortedByDateDesc` — and
the page renders exactly one list item per post, in order, keyed by the
post's id, linking to `/posts/{id}` and showing that post's title and
date. -/
theorem home_renders_all_posts (dir : Dir) (posts : List PostMetadata)
    (h : getStaticPropsHome dir = .ok posts) :
    listPostsSortedByDateDesc dir = .ok posts ∧
    (homeListItems posts).length = posts.length ∧
    ∀ (i : Nat) (hi : i < posts.length) (hi2 : i < (homeListItems posts).length),
      (homeListItems posts).get ⟨i, hi2⟩ =
        ⟨(posts.get ⟨i, hi⟩).id, "/posts/" ++ (posts.get ⟨i, hi⟩).id,
          (posts.get ⟨i, hi⟩).title, (posts.get ⟨i, hi⟩).date⟩ := by
  refine ⟨h, by simp [homeListItems], ?_⟩
  intro i hi hi2
  simp [homeListItems, List.get_eq_getElem, List.getElem_map]

/-- C10 witness: on the spec §8 example directory the first rendered list
item is the post `b`, keyed `b`, linking to `/posts/b`, titled `B`, dated
2021-06-01. -/
theorem home_renders_all_posts_witness :
    (homeListItems [metaB, metaA]).get ⟨0, by decide⟩ =
      ⟨"b", "/posts/b", "B", "2021-06-01"⟩ := by
  have h := home_renders_all_posts twoFileDir [metaB, metaA] (by decide)
  have h3 := h.2.2 0 (by decide) (by decide)
  exact h3.trans (by decide)

end NextBlog
